import Mathlib

/-!
# Shallow embedding of `data-builder`'s schema validation and type compatibility

This file embeds the functional core of the `data-builder` repository
(`src/core/types.ts`, `src/core/registry.ts`, `src/validation/index.ts`):
the schema data model, `SchemaValidator.validateValue` with its four
kind-specific helpers, and `TypeCompatibility`'s compatibility algorithm
together with its name-keyed entry points over a registry.

JavaScript runtime values are modelled by the inductive `Value`; `typeof`
and `Array.isArray` are modelled explicitly.  JS numbers are modelled as
either NaN or a finite (integer) value, which is all the validator ever
inspects (`typeof` and `isNaN`).  Records (`Record<string, Schema>`,
object values) are modelled as association lists in key-insertion order
with unique keys, matching JS object key enumeration.  The custom-schema
validator predicate is modelled as a synchronous boolean predicate
`Value → Bool`, following the repository's synchronous variant
(`validator?: (value: any) => boolean`).
-/

/-- A JavaScript number: either NaN or an ordinary (finite) value.
The validator only ever asks `typeof` and `isNaN` of a number, so the
finite payload is kept abstract as an integer. -/
inductive JSNum where
  | nan : JSNum
  | fin (n : Int) : JSNum
deriving DecidableEq, Repr

/-- A JavaScript runtime value, covering the `typeof` classes the
validator distinguishes: strings, numbers, booleans, `undefined`,
`null`, arrays, plain objects (own enumerable string keys, in order)
and functions. -/
inductive Value where
  | str (s : String) : Value
  | num (n : JSNum) : Value
  | bool (b : Bool) : Value
  | undefined : Value
  | null : Value
  | arr (elems : List Value) : Value
  | obj (fields : List (String × Value)) : Value
  | func : Value

/-- JavaScript's `typeof` operator on a `Value` (`typeof null` is
`"object"`, arrays and plain objects are `"object"`). -/
def typeofValue : Value → String
  | .str _ => "string"
  | .num _ => "number"
  | .bool _ => "boolean"
  | .undefined => "undefined"
  | .null => "object"
  | .arr _ => "object"
  | .obj _ => "object"
  | .func => "function"

/-- `Array.isArray`. -/
def isArrayValue : Value → Bool
  | .arr _ => true
  | _ => false

/-- `isNaN(v)` for a value already known to be a number (the only way the
source calls it). -/
def isNaNValue : Value → Bool
  | .num .nan => true
  | _ => false

/-- The `type` field of a `PrimitiveSchema`: `'string' | 'number' | 'boolean'`. -/
inductive PrimType where
  | string : PrimType
  | number : PrimType
  | boolean : PrimType
deriving DecidableEq, Repr

/-- The string a `PrimType` denotes (the value compared against `typeof`). -/
def PrimType.name : PrimType → String
  | .string => "string"
  | .number => "number"
  | .boolean => "boolean"

/-- The `Schema` tagged union of `src/core/types.ts`: `PrimitiveSchema`,
`ArraySchema { items, minItems?, maxItems? }`,
`ObjectSchema { properties, required?, additionalProperties? }` and
`CustomSchema { typeName, validator?, innerSchema? }`.
`items` is `Option`al because the compatibility checker guards against an
`undefined` items array; `properties` is an association list in key order. -/
inductive Schema where
  | primitive (type : PrimType) : Schema
  | array (items : Option (List Schema)) (minItems maxItems : Option Nat) : Schema
  | object (properties : List (String × Schema)) (required : Option (List String))
      (additionalProperties : Option Bool) : Schema
  | custom (typeName : String) (validator : Option (Value → Bool))
      (innerSchema : Option Schema) : Schema

/-- The `kind` discriminant string of a schema. -/
def Schema.kind : Schema → String
  | .primitive _ => "primitive"
  | .array _ _ _ => "array"
  | .object _ _ _ => "object"
  | .custom _ _ _ => "custom"

/-- `ValidationResult { isValid, errors }`. -/
structure ValidationResult where
  isValid : Bool
  errors : List String
deriving DecidableEq, Repr

/-- Does an object value (or a properties record) have `key` as an own key
(JS `key in obj` / `Set.has` on `Object.keys`)? -/
def hasKey (fields : List (String × α)) (key : String) : Bool :=
  fields.any (fun kv => kv.1 == key)

/-- `obj[key]` for an own key of an object value (first binding; JS keys
are unique). Absent keys read as `undefined`, as in JS. -/
def getKey (fields : List (String × Value)) (key : String) : Value :=
  match fields.find? (fun kv => kv.1 == key) with
  | some kv => kv.2
  | none => .undefined

/-- `SchemaValidator.validatePrimitive`: the NaN special case first, then
the `typeof` comparison. -/
def validatePrimitive (value : Value) (type : PrimType) : List String :=
  let expectedType := type.name
  let actualType := typeofValue value
  if expectedType == "number" && actualType == "number" && isNaNValue value then
    ["Number value cannot be NaN"]
  else if actualType != expectedType then
    ["Expected " ++ expectedType ++ ", got " ++ actualType]
  else
    []

mutual

/-- `SchemaValidator.validateValue`: dispatch on `schema.kind`, collect
errors, and return `{ isValid: errors.length === 0, errors }`. -/
def validateValue (value : Value) (schema : Schema) : ValidationResult :=
  let errors : List String :=
    match schema with
    | .primitive type => validatePrimitive value type
    | .array items minItems maxItems => validateArray value items minItems maxItems
    | .object properties required additionalProperties =>
        validateObject value properties required additionalProperties
    | .custom typeName validator innerSchema =>
        validateCustom value typeName validator innerSchema
  ⟨errors.length == 0, errors⟩
termination_by (sizeOf schema, 0)

/-- `SchemaValidator.validateArray`: reject non-arrays, then check
`minItems`/`maxItems`, then dispatch on `items.length` (homogeneous when
1, tuple when ≥ 2, empty tuple when 0). -/
def validateArray (value : Value) (items : Option (List Schema))
    (minItems maxItems : Option Nat) : List String :=
  match value with
  | .arr elems =>
    let minErrors : List String :=
      match minItems with
      | some m =>
        if elems.length < m then
          ["Array must have at least " ++ toString m ++ " items, got "
            ++ toString elems.length]
        else []
      | none => []
    let maxErrors : List String :=
      match maxItems with
      | some m =>
        if elems.length > m then
          ["Array must have at most " ++ toString m ++ " items, got "
            ++ toString elems.length]
        else []
      | none => []
    let itemErrors : List String :=
      match items with
      | some [] =>
        if elems.length > 0 then
          ["Array schema defines an empty tuple, but received a non-empty array."]
        else []
      | some [itemSchema] => validateHomoItems elems 0 itemSchema
      | some l =>
        (if elems.length != l.length then
          ["Expected tuple of " ++ toString l.length ++ " elements, but got "
            ++ toString elems.length ++ " elements"]
        else []) ++ validateTupleItems l elems 0
      | none => []
    minErrors ++ maxErrors ++ itemErrors
  | _ => ["Expected array"]
termination_by (sizeOf items, 0)

/-- The homogeneous-array loop of `validateArray`: every element against
`items[0]`, errors wrapped as `Item[{index}]: `. -/
def validateHomoItems (elems : List Value) (index : Nat) (itemSchema : Schema) :
    List String :=
  match elems with
  | [] => []
  | item :: rest =>
    (let itemValidation := validateValue item itemSchema
     if itemValidation.isValid then []
     else itemValidation.errors.map
       (fun error => "Item[" ++ toString index ++ "]: " ++ error))
    ++ validateHomoItems rest (index + 1) itemSchema
termination_by (sizeOf itemSchema, 1 + sizeOf elems)

/-- The tuple loop of `validateArray`: iterate `schema.items`, and for
each index that exists in the value, validate `value[index]` against
`items[index]`, errors wrapped as `Item at index {index}: `. -/
def validateTupleItems (schemas : List Schema) (elems : List Value) (index : Nat) :
    List String :=
  match schemas with
  | [] => []
  | itemSchema :: rest =>
    (if index < elems.length then
      let itemValidation := validateValue (elems.getD index .undefined) itemSchema
      if itemValidation.isValid then []
      else itemValidation.errors.map
        (fun error => "Item at index " ++ toString index ++ ": " ++ error)
    else [])
    ++ validateTupleItems rest elems (index + 1)
termination_by (sizeOf schemas, 0)

/-- `SchemaValidator.validateObject`: reject non-objects (null and arrays
included), then missing required keys, then per-property recursive
validation wrapped as `Property '{key}': `, then unexpected own keys
unless `additionalProperties` is true. -/
def validateObject (value : Value) (properties : List (String × Schema))
    (required : Option (List String)) (additionalProperties : Option Bool) :
    List String :=
  match value with
  | .obj fields =>
    let missingErrors : List String :=
      match required with
      | some requiredKeys =>
        requiredKeys.filterMap (fun requiredKey =>
          if hasKey fields requiredKey then none
          else some ("Missing required property: '" ++ requiredKey ++ "'"))
      | none => []
    let propErrors := validateProps properties fields
    let unexpectedErrors : List String :=
      match additionalProperties with
      | some true => []
      | _ =>
        (fields.map (fun kv => kv.1)).filterMap (fun key =>
          if hasKey properties key then none
          else some ("Unexpected property: '" ++ key ++ "'"))
    missingErrors ++ propErrors ++ unexpectedErrors
  | _ => ["Expected object"]
termination_by (sizeOf properties, 1)

/-- The `Object.entries(schema.properties)` loop of `validateObject`:
recursively validate each declared property that is present in the value. -/
def validateProps (properties : List (String × Schema))
    (fields : List (String × Value)) : List String :=
  match properties with
  | [] => []
  | (key, propSchema) :: rest =>
    (if hasKey fields key then
      let propValidation := validateValue (getKey fields key) propSchema
      if propValidation.isValid then []
      else propValidation.errors.map
        (fun error => "Property '" ++ key ++ "': " ++ error)
    else [])
    ++ validateProps rest fields
termination_by (sizeOf properties, 0)

/-- `SchemaValidator.validateCustom`: the optional validator check and the
optional inner-schema recursion, both always performed, errors
accumulated (inner errors appended verbatim). -/
def validateCustom (value : Value) (typeName : String)
    (validator : Option (Value → Bool)) (innerSchema : Option Schema) :
    List String :=
  (match validator with
   | some f =>
     if !(f value) then ["Custom validation failed for type: " ++ typeName]
     else []
   | none => [])
  ++
  (match innerSchema with
   | some inner =>
     let innerValidation := validateValue value inner
     if innerValidation.isValid then [] else innerValidation.errors
   | none => [])
termination_by (sizeOf innerSchema, 0)

end

/-- `TypeDefinition { name, schema, description? }`. -/
structure TypeDefinition where
  name : String
  schema : Schema
  description : Option String := none

/-- The read side of the `TypeRegistry` collaborator: `getType`. -/
def Registry : Type := String → Option TypeDefinition

mutual

/-- `TypeCompatibility.areSchemasCompatible`: schemas of different kinds
are never compatible; primitives compare `type`, arrays dispatch on the
shapes of `items`, objects defer to `areObjectSchemasCompatible`, custom
schemas compare `typeName` only. -/
def areSchemasCompatible (sourceSchema targetSchema : Schema) : Bool :=
  match sourceSchema, targetSchema with
  | .primitive sourceType, .primitive targetType => sourceType == targetType
  | .array sourceItems _ _, .array targetItems _ _ =>
    match sourceItems, targetItems with
    | none, none => true
    | none, some _ => false
    | some _, none => false
    | some [], some [] => true
    | some [], some (_ :: _) => false
    | some (_ :: _), some [] => false
    | some [sourceItem], some [targetItem] =>
      areSchemasCompatible sourceItem targetItem
    | some sourceList, some targetList =>
      if sourceList.length == targetList.length then
        arePairwiseCompatible sourceList targetList
      else false
  | .object sourceProps _ _, .object targetProps targetRequired _ =>
    areObjectSchemasCompatible sourceProps targetProps targetRequired
  | .custom sourceName _ _, .custom targetName _ _ => sourceName == targetName
  | _, _ => false
termination_by (sizeOf sourceSchema + sizeOf targetSchema, 0)

/-- The tuple loop of `areSchemasCompatible`: positionwise recursive
compatibility (only ever called on lists of equal length). -/
def arePairwiseCompatible (sourceList targetList : List Schema) : Bool :=
  match sourceList, targetList with
  | sourceItem :: sourceRest, targetItem :: targetRest =>
    areSchemasCompatible sourceItem targetItem
      && arePairwiseCompatible sourceRest targetRest
  | _, _ => true
termination_by (sizeOf sourceList + sizeOf targetList, 0)

/-- `TypeCompatibility.areObjectSchemasCompatible`: every name in the
target's `required` must be a key of the source's `properties`, and every
property key both sides declare must have recursively compatible schemas. -/
def areObjectSchemasCompatible (sourceProps targetProps : List (String × Schema))
    (targetRequired : Option (List String)) : Bool :=
  (targetRequired.getD []).all (fun requiredKey => hasKey sourceProps requiredKey)
    && areCommonPropsCompatible targetProps sourceProps
termination_by (sizeOf sourceProps + sizeOf targetProps, 1)

/-- The `Object.entries(target.properties)` loop of
`areObjectSchemasCompatible`: a target property present in the source
must have a compatible source schema; one absent from the source is
ignored. -/
def areCommonPropsCompatible (targetProps sourceProps : List (String × Schema)) :
    Bool :=
  match targetProps with
  | [] => true
  | (key, targetPropSchema) :: targetRest =>
    lookupCompat sourceProps key targetPropSchema
      && areCommonPropsCompatible targetRest sourceProps
termination_by (sizeOf sourceProps + sizeOf targetProps, 0)

/-- `key in source.properties` followed by
`areSchemasCompatible(source.properties[key], targetPropSchema)`:
scan the source record for the key and recurse on a hit, `true` on a miss. -/
def lookupCompat (sourceProps : List (String × Schema)) (key : String)
    (targetPropSchema : Schema) : Bool :=
  match sourceProps with
  | [] => true
  | (sourceKey, sourcePropSchema) :: sourceRest =>
    if sourceKey == key then areSchemasCompatible sourcePropSchema targetPropSchema
    else lookupCompat sourceRest key targetPropSchema
termination_by (sizeOf sourceProps + sizeOf targetPropSchema, 0)

end

/-- `TypeCompatibility.areCompatible` (name-keyed): identical names are
compatible; otherwise resolve both names through the registry and fall
back to the schema-level check, `false` if either name is unknown. -/
def areCompatible (getType : Registry) (sourceTypeName targetTypeName : String) :
    Bool :=
  if sourceTypeName == targetTypeName then true
  else
    match getType sourceTypeName, getType targetTypeName with
    | some sourceType, some targetType =>
      areSchemasCompatible sourceType.schema targetType.schema
    | _, _ => false

/-- `CompatibilityResult { isCompatible, reason? }`. -/
structure CompatibilityResult where
  isCompatible : Bool
  reason : Option String := none
deriving DecidableEq, Repr

/-- `TypeCompatibility.checkCompatibility`: like `areCompatible` but with
a reason on every failure path ("Unknown source type", "Unknown target
type", "Type mismatch"). -/
def checkCompatibility (getType : Registry) (sourceTypeName targetTypeName : String) :
    CompatibilityResult :=
  if sourceTypeName == targetTypeName then ⟨true, none⟩
  else
    match getType sourceTypeName with
    | none => ⟨false, some ("Unknown source type: " ++ sourceTypeName)⟩
    | some sourceType =>
      match getType targetTypeName with
      | none => ⟨false, some ("Unknown target type: " ++ targetTypeName)⟩
      | some targetType =>
        if !areSchemasCompatible sourceType.schema targetType.schema then
          ⟨false, some ("Type mismatch: " ++ sourceTypeName
            ++ " is not compatible with " ++ targetTypeName)⟩
        else ⟨true, none⟩

/-! ## Basic lemmas about validation results -/

/-- `validateValue` builds its result as
`{ isValid: errors.length === 0, errors }`, so `isValid` is exactly the
emptiness of `errors`. -/
theorem validateValue_isValid_eq (value : Value) (schema : Schema) :
    (validateValue value schema).isValid
      = ((validateValue value schema).errors.length == 0) := by
  rw [validateValue.eq_def]

/-- A valid result carries no errors. -/
theorem validateValue_errors_of_isValid (value : Value) (schema : Schema)
    (h : (validateValue value schema).isValid = true) :
    (validateValue value schema).errors = [] := by
  rw [validateValue_isValid_eq] at h
  simpa using h

/-- The `if (!r.isValid) push(...r.errors)` pattern of the source appends
exactly `r.errors`, because a valid result has no errors. -/
theorem guarded_errors_eq (value : Value) (schema : Schema) :
    (if (validateValue value schema).isValid then []
     else (validateValue value schema).errors)
      = (validateValue value schema).errors := by
  by_cases h : (validateValue value schema).isValid
  · simp [h, validateValue_errors_of_isValid value schema h]
  · simp [h]

/-- Likewise for the wrapped (path-prefixed) forms: mapping over the
errors of a valid result produces nothing. -/
theorem guarded_mapped_errors_eq (value : Value) (schema : Schema)
    (wrap : String → String) :
    (if (validateValue value schema).isValid then []
     else (validateValue value schema).errors.map wrap)
      = (validateValue value schema).errors.map wrap := by
  by_cases h : (validateValue value schema).isValid
  · simp [h, validateValue_errors_of_isValid value schema h]
  · simp [h]

/-! ## Claim theorems -/

/-- C1: for every value and every custom schema, a present validator that
returns false contributes exactly the error
`Custom validation failed for type: {typeName}`, a present inner schema
contributes its recursive errors verbatim (appended, without any added
path), both checks run regardless of the other's outcome, and their
errors accumulate into the one error list of the result. -/
theorem validateCustom_validator_and_innerSchema_accumulate
    (value : Value) (typeName : String) (validator : Option (Value → Bool))
    (innerSchema : Option Schema) :
    (validateValue value (.custom typeName validator innerSchema)).errors
      = (match validator with
         | some f =>
           if f value then []
           else ["Custom validation failed for type: " ++ typeName]
         | none => [])
        ++ (match innerSchema with
            | some inner => (validateValue value inner).errors
            | none => []) := by
  have h : (validateValue value (.custom typeName validator innerSchema)).errors
      = validateCustom value typeName validator innerSchema := by
    rw [validateValue.eq_def]
  rw [h, validateCustom.eq_def]
  congr 1
  · cases validator with
    | none => rfl
    | some f => cases hf : f value <;> simp [hf]
  · cases innerSchema with
    | none => rfl
    | some inner => exact guarded_errors_eq value inner

/-- C2: primitive validation succeeds exactly when the value's runtime
type equals the schema's `type` and the value is not a NaN number; a NaN
number checked against the `number` schema yields the single error
`Number value cannot be NaN`, and any runtime-type mismatch yields
`Expected {expected}, got {actual}`. -/
theorem validatePrimitive_typeof_and_nan (value : Value) (type : PrimType) :
    ((validateValue value (.primitive type)).isValid
        = (typeofValue value == type.name
            && !(type == PrimType.number && isNaNValue value)))
    ∧ (type = PrimType.number → isNaNValue value = true →
        (validateValue value (.primitive type)).errors
          = ["Number value cannot be NaN"])
    ∧ (typeofValue value ≠ type.name →
        (validateValue value (.primitive type)).errors
          = ["Expected " ++ type.name ++ ", got " ++ typeofValue value]) := by
  cases value
  case num n =>
    cases n <;> cases type <;>
      simp [validateValue, validatePrimitive, typeofValue, isNaNValue, PrimType.name]
  all_goals cases type <;>
    simp [validateValue, validatePrimitive, typeofValue, isNaNValue, PrimType.name]

/-- C8: every validation result satisfies
`isValid == (errors.length == 0)`, for every value and every schema of
the four kinds. -/
theorem validationResult_isValid_iff_no_errors (value : Value) (schema : Schema) :
    (validateValue value schema).isValid
      = ((validateValue value schema).errors.length == 0) :=
  validateValue_isValid_eq value schema

/-! ## Object validation: list-shape lemmas and the C3 theorem -/

/-- A `filterMap` that keeps `f a` exactly when `p a` is false is the
`map` of the complement filter. -/
theorem filterMap_if_eq_filter_map {α β : Type} (l : List α) (p : α → Bool)
    (f : α → β) :
    l.filterMap (fun a => if p a then none else some (f a))
      = (l.filter (fun a => !(p a))).map f := by
  induction l with
  | nil => rfl
  | cons a rest ih => cases h : p a <;> simp [h, ih]

/-- The per-property loop of `validateObject` collects, over the declared
properties present in the value, the recursive errors wrapped with
`Property '{key}': `. -/
theorem validateProps_eq_flatMap (properties : List (String × Schema))
    (fields : List (String × Value)) :
    validateProps properties fields
      = (properties.filter (fun kv => hasKey fields kv.1)).flatMap
          (fun kv =>
            (validateValue (getKey fields kv.1) kv.2).errors.map
              (fun error => "Property '" ++ kv.1 ++ "': " ++ error)) := by
  induction properties with
  | nil => rw [validateProps.eq_def]; rfl
  | cons kv rest ih =>
    obtain ⟨key, propSchema⟩ := kv
    rw [validateProps.eq_def]
    cases h : hasKey fields key with
    | false => simpa [h] using ih
    | true => simp [h, ih, guarded_mapped_errors_eq (getKey fields key) propSchema]

/-- C3: object validation emits `Missing required property: '{name}'` for
each required name absent from the value, validates each declared
property present in the value with errors wrapped as `Property '{key}': `,
emits `Unexpected property: '{key}'` for each own key not declared unless
`additionalProperties` is true, and emits nothing for a declared property
that is absent and not required. -/
theorem validateObject_required_properties_unexpected
    (fields : List (String × Value)) (properties : List (String × Schema))
    (required : Option (List String)) (additionalProperties : Option Bool) :
    (validateValue (.obj fields)
        (.object properties required additionalProperties)).errors
      = ((required.getD []).filter (fun k => !(hasKey fields k))).map
            (fun k => "Missing required property: '" ++ k ++ "'")
        ++ (properties.filter (fun kv => hasKey fields kv.1)).flatMap
            (fun kv =>
              (validateValue (getKey fields kv.1) kv.2).errors.map
                (fun error => "Property '" ++ kv.1 ++ "': " ++ error))
        ++ (if additionalProperties = some true then []
            else ((fields.map Prod.fst).filter (fun k => !(hasKey properties k))).map
              (fun k => "Unexpected property: '" ++ k ++ "'")) := by
  have h : (validateValue (.obj fields)
      (.object properties required additionalProperties)).errors
      = validateObject (.obj fields) properties required additionalProperties := by
    rw [validateValue.eq_def]
  rw [h, validateObject.eq_def]
  simp only
  congr 1
  · congr 1
    · cases required with
      | none => rfl
      | some requiredKeys =>
        simpa using filterMap_if_eq_filter_map requiredKeys (hasKey fields)
          (fun k => "Missing required property: '" ++ k ++ "'")
    · exact validateProps_eq_flatMap properties fields
  · cases additionalProperties with
    | none =>
      simpa using filterMap_if_eq_filter_map (fields.map Prod.fst)
        (hasKey properties) (fun k => "Unexpected property: '" ++ k ++ "'")
    | some b =>
      cases b with
      | true => rfl
      | false =>
        simpa using filterMap_if_eq_filter_map (fields.map Prod.fst)
          (hasKey properties) (fun k => "Unexpected property: '" ++ k ++ "'")

/-! ## Tuple validation: the C4 theorem -/

/-- The tuple loop of `validateArray` collects, over the schema positions
that exist in the value, the recursive errors wrapped with
`Item at index {i}: `. -/
theorem validateTupleItems_eq_flatMap (schemas : List Schema)
    (elems : List Value) (start : Nat) :
    validateTupleItems schemas elems start
      = ((schemas.enumFrom start).filter
            (fun p => decide (p.1 < elems.length))).flatMap
          (fun p =>
            (validateValue (elems.getD p.1 .undefined) p.2).errors.map
              (fun error => "Item at index " ++ toString p.1 ++ ": " ++ error)) := by
  induction schemas generalizing start with
  | nil => rw [validateTupleItems.eq_def]; rfl
  | cons itemSchema rest ih =>
    rw [validateTupleItems.eq_def]
    by_cases h : start < elems.length
    · simp [List.enumFrom, h, ih (start + 1),
        guarded_mapped_errors_eq (elems.getD start .undefined) itemSchema]
      exact fun hv => validateValue_errors_of_isValid _ _ hv
    · simp [List.enumFrom, h, ih (start + 1)]

/-- C4: for a tuple schema (`items.length ≥ 2`), the errors are the
`minItems`/`maxItems` violations, then exactly one
`Expected tuple of {n} elements, but got {m} elements` error when the
value's length differs from the tuple's, then for each index below both
lengths the recursive errors wrapped with `Item at index {i}: `; in
particular `["a"]` against the tuple `[string, number]` is invalid with
only the length-mismatch error. -/
theorem validateArray_tuple_length_and_indexes
    (items : List Schema) (h : 2 ≤ items.length)
    (elems : List Value) (minItems maxItems : Option Nat) :
    ((validateValue (.arr elems) (.array (some items) minItems maxItems)).errors
      = (match minItems with
         | some m =>
           if elems.length < m then
             ["Array must have at least " ++ toString m ++ " items, got "
               ++ toString elems.length]
           else []
         | none => [])
        ++ (match maxItems with
            | some m =>
              if elems.length > m then
                ["Array must have at most " ++ toString m ++ " items, got "
                  ++ toString elems.length]
              else []
            | none => [])
        ++ (if elems.length = items.length then []
            else ["Expected tuple of " ++ toString items.length
              ++ " elements, but got " ++ toString elems.length ++ " elements"])
        ++ ((items.enumFrom 0).filter
              (fun p => decide (p.1 < elems.length))).flatMap
            (fun p =>
              (validateValue (elems.getD p.1 .undefined) p.2).errors.map
                (fun error => "Item at index " ++ toString p.1 ++ ": " ++ error)))
    ∧ validateValue (.arr [.str "a"])
        (.array (some [.primitive .string, .primitive .number]) none none)
      = ⟨false, ["Expected tuple of 2 elements, but got 1 elements"]⟩ := by
  constructor
  · have hv : (validateValue (.arr elems)
        (.array (some items) minItems maxItems)).errors
        = validateArray (.arr elems) (some items) minItems maxItems := by
      rw [validateValue.eq_def]
    rw [hv]
    match items, h with
    | a :: b :: rest, _ =>
      rw [validateArray.eq_def]
      simp only [← validateTupleItems_eq_flatMap (a :: b :: rest) elems 0]
      by_cases hlen : elems.length = (a :: b :: rest).length
      · simp [hlen]
      · simp [hlen, bne_iff_ne, List.append_assoc]
  · simp [validateValue, validateArray, validateTupleItems, validatePrimitive,
      typeofValue, PrimType.name]
    decide

/-- Witness for C4 at the spec's concrete example: `["a"]` against the
tuple `[string, number]`. -/
theorem validateArray_tuple_length_and_indexes_witness :
    validateValue (.arr [.str "a"])
        (.array (some [.primitive .string, .primitive .number]) none none)
      = ⟨false, ["Expected tuple of 2 elements, but got 1 elements"]⟩ :=
  (validateArray_tuple_length_and_indexes
    [.primitive .string, .primitive .number] (by decide) [.str "a"] none none).2

/-! ## Array compatibility: the C5 theorem -/

/-- Modelled from the spec's words (§4.2, array rule): if either side has
no `items`, compatible only if both lack it; if either side's `items` is
empty, compatible only if both are empty; if both are homogeneous (length
1) or both are tuples (length ≥ 2) of equal length, positionwise
recursive compatibility; anything else is incompatible. -/
def specArrayItemsCompatible (sourceItems targetItems : Option (List Schema)) :
    Bool :=
  match sourceItems, targetItems with
  | none, none => true
  | none, some _ => false
  | some _, none => false
  | some sourceList, some targetList =>
    if sourceList.length = 0 ∨ targetList.length = 0 then
      sourceList.length == targetList.length
    else if sourceList.length = 1 ∧ targetList.length = 1 then
      (sourceList.zip targetList).all (fun p => areSchemasCompatible p.1 p.2)
    else if 2 ≤ sourceList.length ∧ 2 ≤ targetList.length
        ∧ sourceList.length = targetList.length then
      (sourceList.zip targetList).all (fun p => areSchemasCompatible p.1 p.2)
    else false

/-- The tuple loop of the compatibility checker is positionwise
conjunction over the zipped lists. -/
theorem arePairwiseCompatible_eq_zip_all (sourceList targetList : List Schema) :
    arePairwiseCompatible sourceList targetList
      = (sourceList.zip targetList).all (fun p => areSchemasCompatible p.1 p.2) := by
  induction sourceList generalizing targetList with
  | nil => rw [arePairwiseCompatible.eq_def]; rfl
  | cons sourceItem sourceRest ih =>
    cases targetList with
    | nil => rw [arePairwiseCompatible.eq_def]; rfl
    | cons targetItem targetRest =>
      rw [arePairwiseCompatible.eq_def]
      simp [ih targetRest]

/-- C5: array-schema compatibility is exactly the spec's case analysis on
the shapes of the two `items` sequences, and schemas of different kinds
are never compatible. -/
theorem array_compatibility_characterization :
    (∀ (sourceItems : Option (List Schema)) (sMin sMax : Option Nat)
       (targetItems : Option (List Schema)) (tMin tMax : Option Nat),
      areSchemasCompatible (.array sourceItems sMin sMax)
          (.array targetItems tMin tMax)
        = specArrayItemsCompatible sourceItems targetItems)
    ∧ (∀ s t : Schema, s.kind ≠ t.kind → areSchemasCompatible s t = false) := by
  constructor
  · intro sourceItems sMin sMax targetItems tMin tMax
    rw [areSchemasCompatible.eq_def]
    rcases sourceItems with _ | ls
    · rcases targetItems with _ | lt
      · rfl
      · rcases lt with _ | ⟨c, _ | ⟨d, q⟩⟩ <;> rfl
    · rcases targetItems with _ | lt
      · rcases ls with _ | ⟨a, _ | ⟨b, r⟩⟩ <;> rfl
      · rcases ls with _ | ⟨a, _ | ⟨b, r⟩⟩ <;>
          rcases lt with _ | ⟨c, _ | ⟨d, q⟩⟩
        all_goals simp +arith [specArrayItemsCompatible,
          arePairwiseCompatible_eq_zip_all]
  · intro s t hkind
    cases s <;> cases t <;>
      first
        | exact absurd rfl hkind
        | (rw [areSchemasCompatible.eq_def]; try rfl)

/-! ## Custom compatibility (C7) and the name-keyed entry points (C9, C10) -/

/-- C7: two custom schemas are compatible exactly when their `typeName`
strings are equal; validators and inner schemas play no role, so two
custom schemas with the same name and different validators are
compatible. -/
theorem custom_compatibility_by_typeName_only :
    (∀ (sourceName targetName : String)
       (sourceValidator targetValidator : Option (Value → Bool))
       (sourceInner targetInner : Option Schema),
      areSchemasCompatible (.custom sourceName sourceValidator sourceInner)
          (.custom targetName targetValidator targetInner)
        = (sourceName == targetName))
    ∧ areSchemasCompatible (.custom "email" (some fun _ => true) none)
        (.custom "email" (some fun _ => false) none) = true
    ∧ (fun _ : Value => true) ≠ (fun _ : Value => false) := by
  refine ⟨?_, ?_, ?_⟩
  · intro sourceName targetName sourceValidator targetValidator sourceInner targetInner
    rw [areSchemasCompatible.eq_def]
  · rw [areSchemasCompatible.eq_def]; decide
  · intro h
    have hb := congrFun h Value.undefined
    simp at hb

/-- C9: the reason-carrying entry point short-circuits identical names to
compatible; an unresolved source (resp. target) name yields the specific
unknown-source (resp. unknown-target) reason; a failed schema-level check
yields the type-mismatch reason; and the reason is present exactly when
the result is incompatible. -/
theorem checkCompatibility_reasons (getType : Registry)
    (sourceTypeName targetTypeName : String) :
    (sourceTypeName = targetTypeName →
      checkCompatibility getType sourceTypeName targetTypeName = ⟨true, none⟩)
    ∧ (sourceTypeName ≠ targetTypeName → getType sourceTypeName = none →
      checkCompatibility getType sourceTypeName targetTypeName
        = ⟨false, some ("Unknown source type: " ++ sourceTypeName)⟩)
    ∧ (∀ sourceType, sourceTypeName ≠ targetTypeName →
        getType sourceTypeName = some sourceType →
        getType targetTypeName = none →
      checkCompatibility getType sourceTypeName targetTypeName
        = ⟨false, some ("Unknown target type: " ++ targetTypeName)⟩)
    ∧ (∀ sourceType targetType, sourceTypeName ≠ targetTypeName →
        getType sourceTypeName = some sourceType →
        getType targetTypeName = some targetType →
        areSchemasCompatible sourceType.schema targetType.schema = false →
      checkCompatibility getType sourceTypeName targetTypeName
        = ⟨false, some ("Type mismatch: " ++ sourceTypeName
            ++ " is not compatible with " ++ targetTypeName)⟩)
    ∧ ((checkCompatibility getType sourceTypeName targetTypeName).reason.isSome
        = !(checkCompatibility getType sourceTypeName targetTypeName).isCompatible) := by
  refine ⟨?_, ?_, ?_, ?_, ?_⟩
  · intro h
    simp [checkCompatibility, h]
  · intro h hs
    simp [checkCompatibility, h, hs]
  · intro sourceType h hs ht
    simp [checkCompatibility, h, hs, ht]
  · intro sourceType targetType h hs ht hc
    simp [checkCompatibility, h, hs, ht, hc]
  · by_cases h : sourceTypeName = targetTypeName
    · simp [checkCompatibility, h]
    · cases hs : getType sourceTypeName <;> cases ht : getType targetTypeName <;>
        simp [checkCompatibility, h, hs, ht]
      rename_i sourceType targetType
      cases hc : areSchemasCompatible sourceType.schema targetType.schema <;>
        simp [hc]

/-- C10: the boolean entry point agrees with the reason-carrying one on
every registry state and every pair of type names. -/
theorem areCompatible_agrees_with_checkCompatibility (getType : Registry)
    (sourceTypeName targetTypeName : String) :
    areCompatible getType sourceTypeName targetTypeName
      = (checkCompatibility getType sourceTypeName targetTypeName).isCompatible := by
  by_cases h : sourceTypeName = targetTypeName
  · simp [areCompatible, checkCompatibility, h]
  · cases hs : getType sourceTypeName <;> cases ht : getType targetTypeName <;>
      simp [areCompatible, checkCompatibility, h, hs, ht]
    rename_i sourceType targetType
    cases hc : areSchemasCompatible sourceType.schema targetType.schema <;>
      simp [hc]

/-! ## Reflexivity of schema compatibility (C6) -/

/-- C6 counterexample: an object schema that requires a property it never
declares is not compatible with itself — the required-key check scans the
(empty) property record of the source side and fails. -/
theorem compat_not_reflexive_on_undeclared_required :
    areSchemasCompatible (.object [] (some ["x"]) none)
        (.object [] (some ["x"]) none) = false := by
  simp [areSchemasCompatible, areObjectSchemasCompatible, hasKey]

/-- A record has pairwise distinct keys (JS `Record`s always do; the
association-list model has to say it). -/
def nodupKeysB : List (String × α) → Bool
  | [] => true
  | (key, _) :: rest => !(hasKey rest key) && nodupKeysB rest

mutual

/-- A well-formed schema tree: property records have unique keys and
every object node declares all of its `required` names among its
properties (the cross-reference `src/core/types.ts` never checks). -/
def wellFormedSchema : Schema → Bool
  | .primitive _ => true
  | .array none _ _ => true
  | .array (some items) _ _ => wellFormedList items
  | .object properties required _ =>
      nodupKeysB properties
        && (required.getD []).all (fun requiredKey => hasKey properties requiredKey)
        && wellFormedProps properties
  | .custom _ _ none => true
  | .custom _ _ (some inner) => wellFormedSchema inner
termination_by s => sizeOf s

/-- All schemas of a list are well-formed. -/
def wellFormedList : List Schema → Bool
  | [] => true
  | s :: rest => wellFormedSchema s && wellFormedList rest
termination_by l => sizeOf l

/-- All property schemas of a record are well-formed. -/
def wellFormedProps : List (String × Schema) → Bool
  | [] => true
  | (_, s) :: rest => wellFormedSchema s && wellFormedProps rest
termination_by l => sizeOf l

end

/-- Membership form of `wellFormedList`. -/
theorem wellFormedList_mem {l : List Schema} {s : Schema} (hmem : s ∈ l)
    (h : wellFormedList l = true) : wellFormedSchema s = true := by
  induction l with
  | nil => cases hmem
  | cons head rest ih =>
    rw [wellFormedList.eq_def] at h
    simp only [Bool.and_eq_true] at h
    rcases List.mem_cons.mp hmem with heq | hrest
    · exact heq ▸ h.1
    · exact ih hrest h.2

/-- Membership form of `wellFormedProps`. -/
theorem wellFormedProps_mem {props : List (String × Schema)} {p : String × Schema}
    (hmem : p ∈ props) (h : wellFormedProps props = true) :
    wellFormedSchema p.2 = true := by
  induction props with
  | nil => cases hmem
  | cons head rest ih =>
    obtain ⟨key, sch⟩ := head
    rw [wellFormedProps.eq_def] at h
    simp only [Bool.and_eq_true] at h
    rcases List.mem_cons.mp hmem with heq | hrest
    · rw [heq]
      exact h.1
    · exact ih hrest h.2

/-- The tuple loop is reflexive once every member is self-compatible. -/
theorem arePairwiseCompatible_self (l : List Schema)
    (h : ∀ s ∈ l, areSchemasCompatible s s = true) :
    arePairwiseCompatible l l = true := by
  induction l with
  | nil => rw [arePairwiseCompatible.eq_def]
  | cons head rest ih =>
    rw [arePairwiseCompatible.eq_def]
    simp only [Bool.and_eq_true]
    exact ⟨h head (List.mem_cons_self head rest),
      ih (fun s hs => h s (List.mem_cons_of_mem head hs))⟩

/-- On a duplicate-free record, looking a declared key up finds exactly
its own schema, so self-compatibility of that schema settles the scan. -/
theorem lookupCompat_self (sourceProps : List (String × Schema)) (key : String)
    (tsch : Schema) (hmem : (key, tsch) ∈ sourceProps)
    (hnodup : nodupKeysB sourceProps = true)
    (hrefl : areSchemasCompatible tsch tsch = true) :
    lookupCompat sourceProps key tsch = true := by
  induction sourceProps with
  | nil => cases hmem
  | cons head rest ih =>
    obtain ⟨headKey, headSchema⟩ := head
    rw [nodupKeysB] at hnodup
    simp only [Bool.and_eq_true, Bool.not_eq_true'] at hnodup
    rw [lookupCompat.eq_def]
    by_cases hk : headKey = key
    · rcases List.mem_cons.mp hmem with heq | hrest
      · cases heq
        simp [hrefl]
      · exfalso
        have : hasKey rest headKey = true := by
          rw [hk]
          exact List.any_eq_true.mpr ⟨(key, tsch), hrest, by simp⟩
        rw [this] at hnodup
        exact absurd hnodup.1 (by simp)
    · have hkb : (headKey == key) = false := by
        exact beq_eq_false_iff_ne.mpr hk
      simp only [hkb, if_false]
      rcases List.mem_cons.mp hmem with heq | hrest
      · cases heq
        exact absurd rfl hk
      · exact ih hrest hnodup.2

/-- The per-property loop of object compatibility succeeds once each
declared target property survives the source lookup. -/
theorem areCommonPropsCompatible_of_lookup (targetProps sourceProps :
    List (String × Schema))
    (h : ∀ p ∈ targetProps, lookupCompat sourceProps p.1 p.2 = true) :
    areCommonPropsCompatible targetProps sourceProps = true := by
  induction targetProps with
  | nil => rw [areCommonPropsCompatible.eq_def]
  | cons head rest ih =>
    obtain ⟨key, sch⟩ := head
    rw [areCommonPropsCompatible.eq_def]
    simp only [Bool.and_eq_true]
    exact ⟨h (key, sch) (List.mem_cons_self _ _),
      ih (fun p hp => h p (List.mem_cons_of_mem _ hp))⟩

/-- Reflexivity of the schema-level compatibility algorithm on
well-formed schemas, by recursion on the schema tree. -/
theorem areSchemasCompatible_self (s : Schema)
    (h : wellFormedSchema s = true) : areSchemasCompatible s s = true := by
  match s with
  | .primitive t =>
    rw [areSchemasCompatible.eq_def]
    simp
  | .array none minItems maxItems =>
    rw [areSchemasCompatible.eq_def]
  | .array (some []) minItems maxItems =>
    rw [areSchemasCompatible.eq_def]
  | .array (some [a]) minItems maxItems =>
    have ha : wellFormedSchema a = true := by
      rw [wellFormedSchema.eq_def] at h
      simpa [wellFormedList] using h
    rw [areSchemasCompatible.eq_def]
    exact areSchemasCompatible_self a ha
  | .array (some (a :: b :: rest)) minItems maxItems =>
    have hl : wellFormedList (a :: b :: rest) = true := by
      rw [wellFormedSchema.eq_def] at h
      exact h
    have hall : ∀ x ∈ a :: b :: rest, areSchemasCompatible x x = true := by
      intro x hx
      have hs : sizeOf x < sizeOf (a :: b :: rest) := List.sizeOf_lt_of_mem hx
      exact areSchemasCompatible_self x (wellFormedList_mem hx hl)
    rw [areSchemasCompatible.eq_def]
    simp [arePairwiseCompatible_self (a :: b :: rest) hall]
  | .object properties required additionalProperties =>
    rw [wellFormedSchema.eq_def] at h
    simp only [Bool.and_eq_true] at h
    obtain ⟨⟨hnodup, hreq⟩, hprops⟩ := h
    have hall : ∀ p ∈ properties, areSchemasCompatible p.2 p.2 = true := by
      intro p hp
      obtain ⟨key, sch⟩ := p
      have hs : sizeOf (key, sch) < sizeOf properties := List.sizeOf_lt_of_mem hp
      have hs2 : sizeOf sch < sizeOf properties := by
        have hpair : sizeOf (key, sch) = 1 + sizeOf key + sizeOf sch := rfl
        omega
      exact areSchemasCompatible_self sch (wellFormedProps_mem hp hprops)
    rw [areSchemasCompatible.eq_def]
    show areObjectSchemasCompatible properties properties required = true
    rw [areObjectSchemasCompatible.eq_def]
    simp only [Bool.and_eq_true]
    refine ⟨hreq, ?_⟩
    refine areCommonPropsCompatible_of_lookup properties properties ?_
    intro p hp
    exact lookupCompat_self properties p.1 p.2 (by simpa using hp) hnodup (hall p hp)
  | .custom typeName validator innerSchema =>
    rw [areSchemasCompatible.eq_def]
    simp
termination_by sizeOf s

/-- C6 (amended): schema-level compatibility is reflexive for every
well-formed schema, where well-formed additionally requires every object
node to declare its `required` names among its `properties` keys (the
unchecked cross-reference); the original claim fails without that
restriction, as the counterexample shows. -/
theorem compat_reflexive_on_wellformed (s : Schema)
    (h : wellFormedSchema s = true) : areSchemasCompatible s s = true :=
  areSchemasCompatible_self s h

/-- Witness for C6 at a concrete nested schema. -/
theorem compat_reflexive_on_wellformed_witness :
    areSchemasCompatible
        (.object [("id", .primitive .number),
            ("tags", .array (some [.primitive .string]) none none)]
          (some ["id"]) (some false))
        (.object [("id", .primitive .number),
            ("tags", .array (some [.primitive .string]) none none)]
          (some ["id"]) (some false)) = true :=
  compat_reflexive_on_wellformed _
    (by simp [wellFormedSchema, wellFormedList, wellFormedProps, nodupKeysB, hasKey])
